import Mathlib

/-!
Verification of the marketplace crawler (`src/crawler.py`).

The Python source is shallowly embedded: the pydantic models become
structures, the pure parsing functions become Lean functions, and the
network layer (`requests.Session`) is abstracted as an explicit
`fetch : String → Option String` parameter (`some body` for a 2xx response
body, `none` for a transport error / non-2xx raised by
`raise_for_status`).  The BeautifulSoup document is embedded as an element
tree (`Node`/`NodeList`), with the HTML-text-to-tree parse supplied as a
`soup : String → NodeList` parameter.
-/

namespace Crawler

/-- `MARKETPLACE_API_URL` from crawler.py. -/
def MARKETPLACE_API_URL : String := "https://www.dedaluslabs.ai/api/marketplace"

/-- `MARKETPLACE_BASE_URL` from crawler.py. -/
def MARKETPLACE_BASE_URL : String := "https://www.dedaluslabs.ai/marketplace"

/-- `GITHUB_BASE_URL` from crawler.py. -/
def GITHUB_BASE_URL : String := "https://github.com"

/-- `REQUEST_TIMEOUT` from crawler.py (seconds). -/
def REQUEST_TIMEOUT : Nat := 30

/-- `MAX_WORKERS` from crawler.py. -/
def MAX_WORKERS : Nat := 5

/-- `class ToolInfo(BaseModel)`: name plus optional description. -/
structure ToolInfo where
  name : String
  description : Option String := none
deriving Repr, DecidableEq

/-- `class ServerInfo(BaseModel)`: one marketplace server entry. -/
structure ServerInfo where
  name : String
  slug : String
  publisher : String
  description : Option String := none
  github_url : Option String := none
  marketplace_url : String
  language : Option String := none
  heat_score : Option Int := none
  upvote_count : Option Int := none
  tools : List ToolInfo := []
  auth_required : Option String := none
deriving Repr, DecidableEq

/-- `class ScanResult(BaseModel)`: aggregate scan outcome. -/
structure ScanResult where
  total_servers : Nat
  servers : List ServerInfo
  errors : List String := []
deriving Repr, DecidableEq

/-- The `tags.auth` sub-mapping of a raw API record: three boolean flags.
An absent flag is modelled as `false` (Python `dict.get` returns `None`,
which is falsy). -/
structure AuthTags where
  api_key : Bool := false
  oauth : Bool := false
  none : Bool := false
deriving Repr, DecidableEq

/-- The `tags` mapping of a raw API record (the keys crawler.py reads). -/
structure Tags where
  language : Option String := none
  auth : Option AuthTags := none
deriving Repr, DecidableEq

/-- One raw record of the API response's `repositories` list, restricted to
the keys crawler.py reads.  `none` models an absent key (or a JSON null,
which `dict.get` also yields as `None`). -/
structure RawRepo where
  slug : Option String := none
  git_slug : Option String := none
  description : Option String := none
  subtitle : Option String := none
  heat_score : Option Int := none
  upvote_count : Option Int := none
  tags : Option Tags := none
deriving Repr, DecidableEq

/-- Python truthiness of an optional string: `None` and `""` are falsy. -/
def pyTruthy : Option String → Bool
  | some s => s ≠ ""
  | none => false

/-- Python `a or b` on two optional strings: yields `a` when `a` is truthy,
otherwise `b` (even when `b` is falsy). -/
def pyOr (a b : Option String) : Option String :=
  if pyTruthy a then a else b

/-- Split a character list at the first occurrence of `sep`:
returns the part before it and, when `sep` occurs, the part after it. -/
def splitFirst (sep : Char) : List Char → List Char × Option (List Char)
  | [] => ([], Option.none)
  | c :: cs =>
      if c = sep then ([], some cs)
      else
        let r := splitFirst sep cs
        (c :: r.1, r.2)

/-- Python `s.split(sep, 1)` for a one-character separator: `[s]` when the
separator does not occur, `[before, after]` otherwise. -/
def pySplitOnce (s : String) (sep : Char) : List String :=
  match splitFirst sep s.data with
  | (pre, Option.none) => [String.mk pre]
  | (pre, some post) => [String.mk pre, String.mk post]

/-- `def _parse_api_server(repo)`: normalise one raw API record into a
`ServerInfo`.  Mirrors crawler.py lines 63-96. -/
def _parse_api_server (repo : RawRepo) : ServerInfo :=
  -- slug = repo.get("slug", ""); parts = slug.split("/", 1)
  let slug := repo.slug.getD ""
  let parts := pySplitOnce slug '/'
  -- publisher = parts[0] if len(parts) > 0 else "unknown"
  let publisher := match parts with
    | [] => "unknown"
    | p :: _ => p
  -- name = parts[1] if len(parts) > 1 else slug
  let name := match parts with
    | _ :: n :: _ => n
    | _ => slug
  -- github_url = f"{GITHUB_BASE_URL}/{git_slug}" if git_slug else None
  let github_url :=
    if pyTruthy repo.git_slug then some (GITHUB_BASE_URL ++ "/" ++ repo.git_slug.getD "")
    else Option.none
  -- tags = repo.get("tags") or {}; auth_info = tags.get("auth") or {}
  let tags := repo.tags.getD {}
  let auth_info := tags.auth.getD {}
  let auth_required :=
    if auth_info.api_key then some "api_key"
    else if auth_info.oauth then some "oauth"
    else if auth_info.none then some "none"
    else Option.none
  { name := name
    slug := slug
    publisher := publisher
    description := pyOr repo.description repo.subtitle
    github_url := github_url
    marketplace_url := MARKETPLACE_BASE_URL ++ "/" ++ slug
    language := tags.language
    heat_score := repo.heat_score
    upvote_count := repo.upvote_count
    auth_required := auth_required }

/-! ### HTML document model

BeautifulSoup's parsed document is embedded as a tree of element and text
nodes.  The `classAttr` of an element is its `class` attribute with the
class tokens joined by single spaces (bs4 matches a `class_` filter
function against each individual class and against the space-joined
attribute value; for the space-free needles used in crawler.py both tests
reduce to a substring test on the joined value). -/

mutual
/-- One DOM node: an element (tag, optional class attribute, children) or
a text node. -/
inductive Node where
  | elem (tag : String) (classAttr : Option String) (children : NodeList)
  | text (s : String)

/-- A sibling list of DOM nodes. -/
inductive NodeList where
  | nil
  | cons (hd : Node) (tl : NodeList)
end

/-- Whitespace characters stripped by Python's `str.strip()` (the subset
relevant here). -/
def pyIsSpace (c : Char) : Bool :=
  c = ' ' || c = '\t' || c = '\n' || c = '\r' || c = '\x0b' || c = '\x0c'

/-- Python `s.strip()`. -/
def pyStrip (s : String) : String :=
  String.mk (((s.data.dropWhile pyIsSpace).reverse.dropWhile pyIsSpace).reverse)

/-- Python `s.isupper()`: at least one cased character and no lower-case
character. -/
def pyIsUpper (s : String) : Bool :=
  s.data.any (fun c => c.isUpper || c.isLower) && s.data.all (fun c => !c.isLower)

mutual
/-- `node.get_text(strip=True)` with the default `""` separator: the
concatenation, in document order, of each descendant text fragment
stripped of surrounding whitespace. -/
def getTextNode : Node → String
  | .text s => pyStrip s
  | .elem _ _ ch => getTextList ch

/-- `get_text(strip=True)` over a sibling list. -/
def getTextList : NodeList → String
  | .nil => ""
  | .cons n rest => getTextNode n ++ getTextList rest
end

/-- `pat` occurs as a prefix of `l` (character-wise). -/
def isPre (pat l : List Char) : Bool :=
  match pat, l with
  | [], _ => true
  | _ :: _, [] => false
  | a :: as, b :: bs => a = b && isPre as bs

/-- `pat` occurs as a contiguous substring of `l` (Python `pat in s`). -/
def hasSub (pat : List Char) : List Char → Bool
  | [] => pat.isEmpty
  | c :: cs => isPre pat (c :: cs) || hasSub pat cs

/-- The `find_all` filter of crawler.py line 128: an `h4` element whose
class attribute satisfies `lambda c: c and "font-semibold" in c and
"text-lg" in c`. -/
def isToolCardHeading (tag : String) (classAttr : Option String) : Bool :=
  tag = "h4" &&
    (match classAttr with
     | some c => hasSub "font-semibold".data c.data && hasSub "text-lg".data c.data
     | none => false)

mutual
/-- `soup.find_all(...)` restricted to the tool-card filter: collect, in
document order (preorder), every matching element paired with its list of
following siblings (needed for `find_next_sibling`). -/
def toolCardsOfNode (n : Node) (siblings : NodeList) : List (Node × NodeList) :=
  match n with
  | .text _ => []
  | .elem t c ch =>
      (if isToolCardHeading t c then [(Node.elem t c ch, siblings)] else [])
        ++ toolCardsOfList ch

/-- `find_all` over a sibling list, in document order. -/
def toolCardsOfList : NodeList → List (Node × NodeList)
  | .nil => []
  | .cons n rest => toolCardsOfNode n rest ++ toolCardsOfList rest
end

/-- `h4.find_next_sibling("p")`: the first following sibling element whose
tag is `p`, skipping any intervening text nodes and non-`p` elements. -/
def findNextSiblingP : NodeList → Option Node
  | .nil => Option.none
  | .cons (Node.text _) rest => findNextSiblingP rest
  | .cons (Node.elem t c ch) rest =>
      if t = "p" then some (Node.elem t c ch) else findNextSiblingP rest

/-- The `excluded_names` set of crawler.py lines 121-124. -/
def excluded_names : List String :=
  ["Tools", "Resources", "Prompts", "Product", "Company", "Legal",
   "Documentation", "Support", "Contact", "About", "Blog", "Pricing"]

/-- The body of the `for h4 in tool_cards` loop of crawler.py lines
130-147: `none` when the candidate is skipped by a `continue`, otherwise
the constructed `ToolInfo`. -/
def toolOfCard (card : Node × NodeList) : Option ToolInfo :=
  let tool_name := getTextNode card.1
  -- if not tool_name or tool_name in excluded_names: continue
  if tool_name = "" || excluded_names.contains tool_name then Option.none
  -- if tool_name.isupper(): continue
  else if pyIsUpper tool_name then Option.none
  else
    -- description = next_p.get_text(strip=True) if next_p else None
    some { name := tool_name
           description := (findNextSiblingP card.2).map getTextNode }

/-- `def _parse_tools_from_html(html)` (crawler.py lines 110-149), applied
to the already-parsed document tree. -/
def _parse_tools_from_html (doc : NodeList) : List ToolInfo :=
  (toolCardsOfList doc).filterMap toolOfCard

/-! ### Detail fetching and enrichment

`requests.Session.get` + `raise_for_status` is abstracted as
`fetch : String → Option String`: `some body` models a 2xx response with
body text `body`, `none` models a `requests.RequestException` (transport
error, timeout, or the non-2xx raised by `raise_for_status`).  The
enrichment worker pool completes futures in an unspecified order; that
order is made explicit as a `completed` list, a permutation of the input
entries, over which the error accumulator is built.  Each worker mutates
only its own entry's `tools` field, so the final entry list is the
position-preserving image of the input list. -/

/-- `def _fetch_detail_page(session, url)` (crawler.py lines 99-107):
returns the body on success and `None` on any `RequestException`. -/
def _fetch_detail_page (fetch : String → Option String) (url : String) : Option String :=
  fetch url

/-- The inner `fetch_tools(server)` closure of `_enrich_with_tools`
(crawler.py lines 160-168): returns the server together with either its
parsed tools or an error string.  The `except Exception` branch is
unreachable in this model because extraction is total. -/
def fetch_tools (soup : String → NodeList) (fetch : String → Option String)
    (server : ServerInfo) : ServerInfo × Option (List ToolInfo) × Option String :=
  let html := _fetch_detail_page fetch server.marketplace_url
  -- if html: tools = _parse_tools_from_html(html); return (server, tools, None)
  if pyTruthy html then
    (server, some (_parse_tools_from_html (soup (html.getD ""))), Option.none)
  -- return (server, None, f"Failed to fetch {server.marketplace_url}")
  else
    (server, Option.none, some ("Failed to fetch " ++ server.marketplace_url))

/-- The effect of the `as_completed` loop body (crawler.py lines 173-179)
on one entry: on an error the entry is left untouched, otherwise its
`tools` field is assigned the parsed list.  In-place mutation of disjoint
entries means the final sequence is this map over the original order. -/
def applyEnrichment (soup : String → NodeList) (fetch : String → Option String)
    (s : ServerInfo) : ServerInfo :=
  match fetch_tools soup fetch s with
  | (_, _, some _) => s
  | (_, some tools, Option.none) => { s with tools := tools }
  | (_, Option.none, Option.none) => s

/-- `def _enrich_with_tools(session, servers, max_workers)` (crawler.py
lines 152-181).  `completed` is the order in which `as_completed` yields
the futures (a permutation of `servers`); the error list is accumulated in
that order, while the entry sequence itself keeps its original order. -/
def _enrich_with_tools (soup : String → NodeList) (fetch : String → Option String)
    (servers : List ServerInfo) (completed : List ServerInfo) :
    List ServerInfo × List String :=
  (servers.map (applyEnrichment soup fetch),
   completed.filterMap (fun s => (fetch_tools soup fetch s).2.2))

/-- `def scan_marketplace_sync(include_tools, session)` (crawler.py lines
184-230).  `api` models the outcome of `_fetch_api_data`: `Except.error e`
is a `requests.RequestException` with message `e`, `Except.ok repos` is a
parsed response whose `repositories` key holds `repos`. -/
def scan_marketplace_sync (include_tools : Bool)
    (api : Except String (List RawRepo))
    (soup : String → NodeList) (fetch : String → Option String)
    (completed : List ServerInfo) : ScanResult :=
  match api with
  | .error e =>
      { total_servers := 0
        servers := []
        errors := ["Failed to fetch marketplace API: " ++ e] }
  | .ok repositories =>
      let servers := repositories.map _parse_api_server
      -- if include_tools and servers: errors.extend(_enrich_with_tools(...))
      if include_tools && !servers.isEmpty then
        let enriched := _enrich_with_tools soup fetch servers completed
        { total_servers := enriched.1.length
          servers := enriched.1
          errors := enriched.2 }
      else
        { total_servers := servers.length
          servers := servers
          errors := [] }

/-- The enriched form of one entry whose detail fetch succeeded: its
`tools` field holds the extractor's result for the fetched body. -/
def enrichedWith (soup : String → NodeList) (fetch : String → Option String)
    (s : ServerInfo) : ServerInfo :=
  { s with tools := _parse_tools_from_html (soup ((fetch s.marketplace_url).getD "")) }

/-! ### Helper lemmas -/

/-- `splitFirst` on a list free of the separator returns the whole list
and no remainder. -/
theorem splitFirst_of_not_mem (sep : Char) (l : List Char)
    (h : ∀ c ∈ l, c ≠ sep) : splitFirst sep l = (l, Option.none) := by
  induction l with
  | nil => rfl
  | cons c cs ih =>
      have hc : c ≠ sep := h c (List.mem_cons_self c cs)
      have ih' := ih (fun x hx => h x (List.mem_cons_of_mem c hx))
      simp [splitFirst, hc, ih']

/-- `splitFirst` on a list containing the separator splits it at the first
occurrence. -/
theorem splitFirst_of_mem (sep : Char) (l : List Char) (h : sep ∈ l) :
    ∃ pre post, splitFirst sep l = (pre, some post) ∧ l = pre ++ sep :: post
      ∧ sep ∉ pre := by
  induction l with
  | nil => cases h
  | cons c cs ih =>
      by_cases hc : c = sep
      · subst hc
        exact ⟨[], cs, by simp [splitFirst], rfl, by simp⟩
      · have hmem : sep ∈ cs := by
          cases List.mem_cons.mp h with
          | inl h0 => exact absurd h0.symm hc
          | inr h0 => exact h0
        obtain ⟨pre, post, h1, h2, h3⟩ := ih hmem
        refine ⟨c :: pre, post, by simp [splitFirst, hc, h1], by simp [h2], ?_⟩
        intro hmem2
        cases List.mem_cons.mp hmem2 with
        | inl h0 => exact hc h0.symm
        | inr h0 => exact h3 h0

/-- Appending `String.mk` values concatenates their character data. -/
theorem mk_append_sep_mk (a b : List Char) :
    String.mk a ++ "/" ++ String.mk b = String.mk (a ++ '/' :: b) := by
  show String.mk ((a ++ ['/']) ++ b) = String.mk (a ++ '/' :: b)
  simp

/-! ### C2: bulk-fetch failure yields an empty, error-carrying result -/

/-- **C2.** When the bulk listing fetch fails, `scan_marketplace_sync`
returns (never raises) a `ScanResult` with `total_servers = 0`, no
entries, and exactly one error string, which contains
`"Failed to fetch"`. -/
theorem C2_bulk_fetch_failure (include_tools : Bool) (e : String)
    (soup : String → NodeList) (fetch : String → Option String)
    (completed : List ServerInfo) :
    scan_marketplace_sync include_tools (Except.error e) soup fetch completed
        = { total_servers := 0
            servers := []
            errors := ["Failed to fetch marketplace API: " ++ e] }
      ∧ ∃ rest, "Failed to fetch marketplace API: " ++ e = "Failed to fetch" ++ rest := by
  refine ⟨rfl, " marketplace API: " ++ e, ?_⟩
  rw [show ("Failed to fetch marketplace API: " : String)
        = "Failed to fetch" ++ " marketplace API: " by decide,
    String.append_assoc]

/-! ### C9: `total_servers` always equals the entry count -/

/-- **C9.** Every `ScanResult` produced by `scan_marketplace_sync`, on the
success path and on the bulk-fetch-failure path alike, satisfies
`total_servers = servers.length`. -/
theorem C9_total_matches_length (include_tools : Bool)
    (api : Except String (List RawRepo)) (soup : String → NodeList)
    (fetch : String → Option String) (completed : List ServerInfo) :
    (scan_marketplace_sync include_tools api soup fetch completed).total_servers
      = (scan_marketplace_sync include_tools api soup fetch completed).servers.length := by
  cases api with
  | error e => simp [scan_marketplace_sync]
  | ok repositories =>
      simp only [scan_marketplace_sync]
      split <;> simp

/-! ### C3: authMode precedence -/

/-- **C3.** `auth_required` is derived from the `tags.auth` flags with
precedence `api_key > oauth > none`, and is absent (`Option.none`) when no
flag is set — in particular when the `tags` mapping or its `auth`
sub-mapping is absent. -/
theorem C3_auth_precedence (repo : RawRepo) :
    (((repo.tags.getD {}).auth.getD {}).api_key = true →
        (_parse_api_server repo).auth_required = some "api_key")
    ∧ (((repo.tags.getD {}).auth.getD {}).api_key = false →
        ((repo.tags.getD {}).auth.getD {}).oauth = true →
        (_parse_api_server repo).auth_required = some "oauth")
    ∧ (((repo.tags.getD {}).auth.getD {}).api_key = false →
        ((repo.tags.getD {}).auth.getD {}).oauth = false →
        ((repo.tags.getD {}).auth.getD {}).none = true →
        (_parse_api_server repo).auth_required = some "none")
    ∧ ((repo.tags.getD {}).auth.getD {} = ({} : AuthTags) →
        (_parse_api_server repo).auth_required = Option.none)
    ∧ (repo.tags = Option.none →
        (_parse_api_server repo).auth_required = Option.none)
    ∧ ((repo.tags.getD {}).auth = Option.none →
        (_parse_api_server repo).auth_required = Option.none) := by
  refine ⟨fun h1 => ?_, fun h1 h2 => ?_, fun h1 h2 h3 => ?_,
    fun h => ?_, fun h => ?_, fun h => ?_⟩
  · simp [_parse_api_server, h1]
  · simp [_parse_api_server, h1, h2]
  · simp [_parse_api_server, h1, h2, h3]
  · simp [_parse_api_server, h]
  · simp [_parse_api_server, h]
  · simp [_parse_api_server, h]

/-- Witness for C3 at a record whose three flags are all set: the
precedence picks `api_key`. -/
theorem C3_auth_precedence_witness :
    (_parse_api_server
        { slug := some "p/s"
          tags := some { auth := some { api_key := true, oauth := true, none := true } } }).auth_required
      = some "api_key" :=
  (C3_auth_precedence _).1 (by decide)

/-! ### C4: slug without separator (corrected) -/

/-- **C4, counterexample.** The claim says a separator-free slug yields
`publisher = "unknown"`.  On the record with slug `"standalone"` the code
sets `publisher` to the full slug itself: Python's `split` always returns
a non-empty list, so the `else "unknown"` branch is dead. -/
theorem C4_counterexample :
    (_parse_api_server { slug := some "standalone" }).publisher = "standalone"
    ∧ (_parse_api_server { slug := some "standalone" }).publisher ≠ "unknown"
    ∧ (_parse_api_server { slug := some "standalone" }).name = "standalone" := by
  decide

/-- **C4, amended.** For every raw record whose slug contains no separator
character, the normalizer sets both `publisher` and `name` to the full
slug (never `"unknown"`). -/
theorem C4_no_separator_amended (repo : RawRepo) (slug : String)
    (hs : repo.slug = some slug) (hn : ∀ c ∈ slug.data, c ≠ '/') :
    (_parse_api_server repo).publisher = slug
    ∧ (_parse_api_server repo).name = slug := by
  have hsplit := splitFirst_of_not_mem '/' slug.data hn
  constructor <;>
    simp [_parse_api_server, hs, pySplitOnce, hsplit]

/-- Witness for C4 (amended) at slug `"standalone"`. -/
theorem C4_no_separator_amended_witness :
    (_parse_api_server { slug := some "standalone" }).publisher = "standalone"
    ∧ (_parse_api_server { slug := some "standalone" }).name = "standalone" :=
  C4_no_separator_amended { slug := some "standalone" } "standalone" rfl (by decide)

/-! ### C5: absent slug does not fail (corrected) -/

/-- **C5, counterexample.** The claim says normalization raises a hard
error exactly when `slug` is absent.  It does not: `repo.get("slug", "")`
substitutes the empty string, and the record with every field absent
normalizes successfully to an entry with empty `slug`, `publisher` and
`name`. -/
theorem C5_counterexample :
    _parse_api_server {}
      = { name := ""
          slug := ""
          publisher := ""
          description := Option.none
          github_url := Option.none
          marketplace_url := "https://www.dedaluslabs.ai/marketplace/"
          language := Option.none
          heat_score := Option.none
          upvote_count := Option.none
          tools := []
          auth_required := Option.none } := by
  decide

/-- **C5, amended.** The normalizer never fails on any raw record: a
record lacking optional fields normalizes, and a record whose `slug` is
absent also normalizes, with the slug treated as the empty string (so
`slug`, `publisher` and `name` are all empty). -/
theorem C5_absent_slug_amended (repo : RawRepo) (h : repo.slug = Option.none) :
    (_parse_api_server repo).slug = ""
    ∧ (_parse_api_server repo).publisher = ""
    ∧ (_parse_api_server repo).name = "" := by
  refine ⟨?_, ?_, ?_⟩ <;>
    simp [_parse_api_server, h, pySplitOnce, splitFirst]

/-- Witness for C5 (amended) at the all-absent record. -/
theorem C5_absent_slug_amended_witness :
    (_parse_api_server {}).slug = ""
    ∧ (_parse_api_server {}).publisher = ""
    ∧ (_parse_api_server {}).name = "" :=
  C5_absent_slug_amended {} rfl

/-! ### C8: two-part slug round-trip -/

/-- **C8.** For every raw record whose slug contains a separator,
`publisher ++ "/" ++ name` reassembles the slug exactly, `publisher` being
the portion before the first separator. -/
theorem C8_slug_roundtrip (repo : RawRepo) (slug : String)
    (hs : repo.slug = some slug) (hsep : '/' ∈ slug.data) :
    (_parse_api_server repo).publisher ++ "/" ++ (_parse_api_server repo).name = slug
    ∧ (∃ post, slug.data = (_parse_api_server repo).publisher.data ++ '/' :: post
        ∧ '/' ∉ (_parse_api_server repo).publisher.data) := by
  obtain ⟨pre, post, h1, h2, h3⟩ := splitFirst_of_mem '/' slug.data hsep
  have hpub : (_parse_api_server repo).publisher = String.mk pre := by
    simp [_parse_api_server, hs, pySplitOnce, h1]
  have hname : (_parse_api_server repo).name = String.mk post := by
    simp [_parse_api_server, hs, pySplitOnce, h1]
  constructor
  · rw [hpub, hname, mk_append_sep_mk]
    conv_rhs => rw [show slug = String.mk slug.data from rfl]
    rw [h2]
  · exact ⟨post, by rw [hpub, h2], by rw [hpub]; exact h3⟩

/-- Witness for C8 at slug `"pub/srv"`. -/
theorem C8_slug_roundtrip_witness :
    (_parse_api_server { slug := some "pub/srv" }).publisher ++ "/"
        ++ (_parse_api_server { slug := some "pub/srv" }).name = "pub/srv"
    ∧ (∃ post, ("pub/srv" : String).data
          = (_parse_api_server { slug := some "pub/srv" }).publisher.data ++ '/' :: post
        ∧ '/' ∉ (_parse_api_server { slug := some "pub/srv" }).publisher.data) :=
  C8_slug_roundtrip { slug := some "pub/srv" } "pub/srv" rfl (by decide)

/-! ### C6: the extractor keeps exactly the accepted headings -/

/-- The acceptance condition of the extractor loop: a candidate heading
text is kept when it is non-empty, not an excluded label, and not entirely
upper-case. -/
def acceptedName (n : String) : Bool :=
  !(n = "" || excluded_names.contains n) && !pyIsUpper n

/-- The descriptor built for an accepted heading: its stripped text plus
the stripped text of its first following `p` sibling, if any. -/
def cardDescriptor (card : Node × NodeList) : ToolInfo :=
  { name := getTextNode card.1
    description := (findNextSiblingP card.2).map getTextNode }

/-- `toolOfCard` in closed form: keep exactly the accepted headings. -/
theorem toolOfCard_eq (card : Node × NodeList) :
    toolOfCard card
      = if acceptedName (getTextNode card.1) then some (cardDescriptor card)
        else Option.none := by
  by_cases h1 : getTextNode card.1 = ""
  · simp [toolOfCard, acceptedName, h1]
  · by_cases h2 : getTextNode card.1 ∈ excluded_names
    · simp [toolOfCard, acceptedName, h1, h2]
    · by_cases h3 : pyIsUpper (getTextNode card.1) = true
      · simp [toolOfCard, acceptedName, h1, h2, h3]
      · simp [toolOfCard, acceptedName, cardDescriptor, h1, h2, h3]

/-- `filterMap toolOfCard` in filter-then-map form. -/
theorem filterMap_toolOfCard (cards : List (Node × NodeList)) :
    cards.filterMap toolOfCard
      = (cards.filter fun c => acceptedName (getTextNode c.1)).map cardDescriptor := by
  induction cards with
  | nil => rfl
  | cons c cs ih =>
      rw [List.filterMap_cons, List.filter_cons, toolOfCard_eq]
      by_cases h : acceptedName (getTextNode c.1)
      · simp [h, ih]
      · simp [h, ih]

/-- **C6.** On every document, the extractor returns, in document order,
exactly one descriptor per matched heading whose stripped text is
accepted (non-empty, not an excluded label, not entirely upper-case); in
particular, when every matched heading's text is an excluded label the
result is empty. -/
theorem C6_extractor_filters (doc : NodeList) :
    _parse_tools_from_html doc
        = ((toolCardsOfList doc).filter fun c => acceptedName (getTextNode c.1)).map cardDescriptor
      ∧ ((∀ c ∈ toolCardsOfList doc, getTextNode c.1 ∈ excluded_names) →
          _parse_tools_from_html doc = []) := by
  refine ⟨filterMap_toolOfCard _, fun h => ?_⟩
  rw [_parse_tools_from_html, filterMap_toolOfCard]
  have hfil : (toolCardsOfList doc).filter (fun c => acceptedName (getTextNode c.1)) = [] := by
    rw [List.filter_eq_nil_iff]
    intro c hc
    have := h c hc
    simp [acceptedName, this]
  rw [hfil, List.map_nil]

/-- Witness for C6 on a document whose only matched heading is the
excluded label `"Tools"`: the extractor returns the empty sequence. -/
theorem C6_extractor_filters_witness :
    _parse_tools_from_html
        (.cons (.elem "h4" (some "text-lg font-semibold") (.cons (.text "Tools") .nil)) .nil)
      = [] :=
  (C6_extractor_filters _).2 (by decide)

/-! ### C7: description comes from the first following `p` sibling
(corrected) -/

/-- **C7, counterexample.** The claim says the description is absent when
the element immediately following the heading is not a paragraph.  On a
document where the heading `Alpha` is followed by a `div` and then a `p`,
`find_next_sibling("p")` skips the `div` and the descriptor still gets the
paragraph's text. -/
theorem C7_counterexample :
    _parse_tools_from_html
        (.cons (.elem "h4" (some "text-lg font-semibold") (.cons (.text "Alpha") .nil))
          (.cons (.elem "div" Option.none .nil)
            (.cons (.elem "p" Option.none (.cons (.text " Beta ") .nil)) .nil)))
      = [{ name := "Alpha", description := some "Beta" }]
    ∧ some "Beta" ≠ (Option.none : Option String) := by
  decide

/-- A node is a paragraph element. -/
def isPTag : Node → Bool
  | .elem t _ _ => t = "p"
  | .text _ => false

/-- A sibling list containing no paragraph element. -/
def hasNoP : NodeList → Bool
  | .nil => true
  | .cons n rest => !isPTag n && hasNoP rest

/-- Concatenation of sibling lists. -/
def nlAppend : NodeList → NodeList → NodeList
  | .nil, l => l
  | .cons n rest, l => .cons n (nlAppend rest l)

/-- `findNextSiblingP` returns the first paragraph sibling, skipping every
earlier non-paragraph sibling. -/
theorem findNextSiblingP_append :
    ∀ (pre : NodeList) (p : Node) (rest : NodeList),
      hasNoP pre = true → isPTag p = true →
      findNextSiblingP (nlAppend pre (.cons p rest)) = some p
  | .nil, Node.elem t c ch, rest, _, hp => by
      have ht : t = "p" := by simpa [isPTag] using hp
      simp [nlAppend, findNextSiblingP, ht]
  | .nil, Node.text s, _, _, hp => by simp [isPTag] at hp
  | .cons (Node.elem t c ch) pre', p, rest, hpre, hp => by
      have h' : ¬t = "p" ∧ hasNoP pre' = true := by
        simpa [hasNoP, isPTag, Bool.and_eq_true] using hpre
      simp [nlAppend, findNextSiblingP, h'.1,
        findNextSiblingP_append pre' p rest h'.2 hp]
  | .cons (Node.text s) pre', p, rest, hpre, hp => by
      have h' : hasNoP pre' = true := by
        simpa [hasNoP, isPTag] using hpre
      simp [nlAppend, findNextSiblingP, findNextSiblingP_append pre' p rest h' hp]

/-- `findNextSiblingP` finds nothing in a paragraph-free sibling list. -/
theorem findNextSiblingP_none :
    ∀ (sibs : NodeList), hasNoP sibs = true →
      findNextSiblingP sibs = Option.none
  | .nil, _ => rfl
  | .cons (Node.elem t c ch) rest, h => by
      have h' : ¬t = "p" ∧ hasNoP rest = true := by
        simpa [hasNoP, isPTag, Bool.and_eq_true] using h
      simp [findNextSiblingP, h'.1, findNextSiblingP_none rest h'.2]
  | .cons (Node.text s) rest, h => by
      have h' : hasNoP rest = true := by
        simpa [hasNoP, isPTag] using h
      simp [findNextSiblingP, findNextSiblingP_none rest h']

/-- **C7, amended.** For every accepted heading, the descriptor's
description equals the stripped text of the *first* following sibling
paragraph element — intervening non-paragraph siblings are skipped — and
is absent exactly when no following sibling is a paragraph. -/
theorem C7_description_amended (h4 p : Node) (pre rest sibs : NodeList)
    (hacc : acceptedName (getTextNode h4) = true)
    (hpre : hasNoP pre = true) (hp : isPTag p = true)
    (hnone : hasNoP sibs = true) :
    toolOfCard (h4, nlAppend pre (.cons p rest))
        = some { name := getTextNode h4, description := some (getTextNode p) }
    ∧ toolOfCard (h4, sibs)
        = some { name := getTextNode h4, description := Option.none } := by
  constructor
  · rw [toolOfCard_eq]
    simp only [hacc, if_pos]
    rw [cardDescriptor]
    simp [findNextSiblingP_append pre p rest hpre hp]
  · rw [toolOfCard_eq]
    simp only [hacc, if_pos]
    rw [cardDescriptor]
    simp [findNextSiblingP_none sibs hnone]

/-- Witness for C7 (amended): heading `Alpha`, a `div` sibling before the
paragraph; and a paragraph-free sibling list. -/
theorem C7_description_amended_witness :
    toolOfCard (Node.elem "h4" (some "text-lg font-semibold") (.cons (.text "Alpha") .nil),
        nlAppend (.cons (.elem "div" Option.none .nil) .nil)
          (.cons (.elem "p" Option.none (.cons (.text " Beta ") .nil)) .nil))
      = some { name := "Alpha", description := some "Beta" }
    ∧ toolOfCard (Node.elem "h4" (some "text-lg font-semibold") (.cons (.text "Alpha") .nil),
        .cons (.elem "div" Option.none .nil) .nil)
      = some { name := "Alpha", description := Option.none } := by
  have h := C7_description_amended
    (Node.elem "h4" (some "text-lg font-semibold") (.cons (.text "Alpha") .nil))
    (Node.elem "p" Option.none (.cons (.text " Beta ") .nil))
    (.cons (.elem "div" Option.none .nil) .nil)
    .nil
    (.cons (.elem "div" Option.none .nil) .nil)
    (by decide) (by decide) (by decide) (by decide)
  exact h

/-! ### Enrichment lemmas -/

/-- `fetch_tools` on a successful fetch with a non-empty body runs the
extractor and reports no error. -/
theorem fetch_tools_ok (soup : String → NodeList) (fetch : String → Option String)
    (s : ServerInfo) (b : String)
    (hb : fetch s.marketplace_url = some b) (hne : b ≠ "") :
    fetch_tools soup fetch s
      = (s, some (_parse_tools_from_html (soup b)), Option.none) := by
  simp [fetch_tools, _fetch_detail_page, hb, pyTruthy, hne]

/-- `fetch_tools` on a failed fetch reports the `Failed to fetch` error
and no tools. -/
theorem fetch_tools_fail (soup : String → NodeList) (fetch : String → Option String)
    (s : ServerInfo) (h : fetch s.marketplace_url = Option.none) :
    fetch_tools soup fetch s
      = (s, Option.none, some ("Failed to fetch " ++ s.marketplace_url)) := by
  simp [fetch_tools, _fetch_detail_page, h, pyTruthy]

/-- `fetch_tools` on a successful fetch whose body is empty takes the same
error path as a failed fetch (`if html:` is false on `""`). -/
theorem fetch_tools_empty (soup : String → NodeList) (fetch : String → Option String)
    (s : ServerInfo) (h : fetch s.marketplace_url = some "") :
    fetch_tools soup fetch s
      = (s, Option.none, some ("Failed to fetch " ++ s.marketplace_url)) := by
  simp [fetch_tools, _fetch_detail_page, h, pyTruthy]

/-- On a successful non-empty fetch the entry's `tools` field is assigned
the extractor's result for the fetched body. -/
theorem applyEnrichment_ok (soup : String → NodeList) (fetch : String → Option String)
    (s : ServerInfo) (b : String)
    (hb : fetch s.marketplace_url = some b) (hne : b ≠ "") :
    applyEnrichment soup fetch s = enrichedWith soup fetch s := by
  rw [applyEnrichment, fetch_tools_ok soup fetch s b hb hne, enrichedWith, hb]
  rfl

/-- On a failed fetch the entry is left untouched. -/
theorem applyEnrichment_fail (soup : String → NodeList) (fetch : String → Option String)
    (s : ServerInfo) (h : fetch s.marketplace_url = Option.none) :
    applyEnrichment soup fetch s = s := by
  rw [applyEnrichment, fetch_tools_fail soup fetch s h]

/-! ### C1: exactly one failing entry among N -/

/-- **C1.** With one entry (`bad`) whose detail fetch fails and every
other entry fetching a non-empty body, enrichment returns the entries in
original order and count, leaves the failing entry untouched (its
capabilities stay empty), assigns every other entry the extractor's result
for its body, and — whatever the worker completion order `completed` —
produces exactly one error string, naming the failing entry's URL. -/
theorem C1_single_failure (soup : String → NodeList) (fetch : String → Option String)
    (pre post completed : List ServerInfo) (bad : ServerInfo)
    (hbad : fetch bad.marketplace_url = Option.none)
    (hbadtools : bad.tools = [])
    (hok : ∀ s ∈ pre ++ post, ∃ b, fetch s.marketplace_url = some b ∧ b ≠ "")
    (hperm : completed.Perm (pre ++ bad :: post)) :
    (_enrich_with_tools soup fetch (pre ++ bad :: post) completed).1.length
        = (pre ++ bad :: post).length
    ∧ (_enrich_with_tools soup fetch (pre ++ bad :: post) completed).1
        = pre.map (enrichedWith soup fetch) ++ bad :: post.map (enrichedWith soup fetch)
    ∧ ((_enrich_with_tools soup fetch (pre ++ bad :: post) completed).1)[pre.length]?
        = some bad
    ∧ bad.tools = []
    ∧ (_enrich_with_tools soup fetch (pre ++ bad :: post) completed).2
        = ["Failed to fetch " ++ bad.marketplace_url] := by
  have hmain : (_enrich_with_tools soup fetch (pre ++ bad :: post) completed).1
      = pre.map (enrichedWith soup fetch) ++ bad :: post.map (enrichedWith soup fetch) := by
    show (pre ++ bad :: post).map (applyEnrichment soup fetch) = _
    rw [List.map_append, List.map_cons]
    congr 1
    · apply List.map_congr_left
      intro s hs
      obtain ⟨b, hb, hne⟩ := hok s (List.mem_append_left _ hs)
      exact applyEnrichment_ok soup fetch s b hb hne
    · congr 1
      · exact applyEnrichment_fail soup fetch bad hbad
      · apply List.map_congr_left
        intro s hs
        obtain ⟨b, hb, hne⟩ := hok s (List.mem_append_right _ hs)
        exact applyEnrichment_ok soup fetch s b hb hne
  have herr : (_enrich_with_tools soup fetch (pre ++ bad :: post) completed).2
      = ["Failed to fetch " ++ bad.marketplace_url] := by
    show completed.filterMap (fun s => (fetch_tools soup fetch s).2.2) = _
    apply List.perm_singleton.mp
    have hp := (hperm.filterMap (fun s => (fetch_tools soup fetch s).2.2))
    rw [List.filterMap_append, List.filterMap_cons] at hp
    have hpre0 : pre.filterMap (fun s => (fetch_tools soup fetch s).2.2) = [] := by
      rw [List.filterMap_eq_nil_iff]
      intro s hs
      obtain ⟨b, hb, hne⟩ := hok s (List.mem_append_left _ hs)
      rw [fetch_tools_ok soup fetch s b hb hne]
    have hpost0 : post.filterMap (fun s => (fetch_tools soup fetch s).2.2) = [] := by
      rw [List.filterMap_eq_nil_iff]
      intro s hs
      obtain ⟨b, hb, hne⟩ := hok s (List.mem_append_right _ hs)
      rw [fetch_tools_ok soup fetch s b hb hne]
    rw [hpre0, hpost0, fetch_tools_fail soup fetch bad hbad] at hp
    simpa using hp
  refine ⟨?_, hmain, ?_, hbadtools, herr⟩
  · rw [hmain]
    simp
  · rw [hmain]
    have hlen : (pre.map (enrichedWith soup fetch)).length = pre.length :=
      List.length_map _ _
    rw [← hlen, List.getElem?_append_right (Nat.le_refl _)]
    simp

/-- Concrete entries and network for the C1 witness. -/
def c1srvA : ServerInfo := _parse_api_server { slug := some "p/a" }

/-- Second concrete entry (the failing one) for the C1 witness. -/
def c1srvB : ServerInfo := _parse_api_server { slug := some "p/b" }

/-- Concrete fetch function for the C1 witness: fails exactly on the
second entry's URL. -/
def c1fetch : String → Option String :=
  fun url => if url = c1srvB.marketplace_url then Option.none else some "<h1>x</h1>"

/-- Concrete parser for the C1 witness. -/
def c1soup : String → NodeList := fun _ => NodeList.nil

/-- Witness for C1 with two entries, the second failing, completion order
reversed. -/
theorem C1_single_failure_witness :
    (_enrich_with_tools c1soup c1fetch ([c1srvA] ++ c1srvB :: []) [c1srvB, c1srvA]).1.length
        = ([c1srvA] ++ c1srvB :: []).length
    ∧ (_enrich_with_tools c1soup c1fetch ([c1srvA] ++ c1srvB :: []) [c1srvB, c1srvA]).1
        = [c1srvA].map (enrichedWith c1soup c1fetch)
            ++ c1srvB :: ([] : List ServerInfo).map (enrichedWith c1soup c1fetch)
    ∧ ((_enrich_with_tools c1soup c1fetch ([c1srvA] ++ c1srvB :: []) [c1srvB, c1srvA]).1)[[c1srvA].length]?
        = some c1srvB
    ∧ c1srvB.tools = []
    ∧ (_enrich_with_tools c1soup c1fetch ([c1srvA] ++ c1srvB :: []) [c1srvB, c1srvA]).2
        = ["Failed to fetch " ++ c1srvB.marketplace_url] := by
  refine C1_single_failure c1soup c1fetch [c1srvA] [] [c1srvB, c1srvA] c1srvB
    (by decide) (by decide) ?_ (List.Perm.swap c1srvA c1srvB [])
  intro s hs
  simp only [List.append_nil, List.mem_singleton] at hs
  subst hs
  exact ⟨"<h1>x</h1>", by decide, by decide⟩

/-! ### C10: successful fetch with empty body behaves as a failure -/

/-- **C10.** When the detail fetch succeeds but the body is the empty
string, `fetch_tools` does not run the extractor (its tools component is
`none`), records the error `"Failed to fetch <url>"`, behaves identically
to a transport-level failure, and the orchestrator leaves the entry — and
hence its empty capabilities — untouched. -/
theorem C10_empty_body (soup : String → NodeList) (fetch fetch2 : String → Option String)
    (s : ServerInfo)
    (h : fetch s.marketplace_url = some "")
    (h2 : fetch2 s.marketplace_url = Option.none) :
    fetch_tools soup fetch s
        = (s, Option.none, some ("Failed to fetch " ++ s.marketplace_url))
    ∧ fetch_tools soup fetch s = fetch_tools soup fetch2 s
    ∧ _enrich_with_tools soup fetch [s] [s]
        = ([s], ["Failed to fetch " ++ s.marketplace_url]) := by
  have e1 := fetch_tools_empty soup fetch s h
  have e2 := fetch_tools_fail soup fetch2 s h2
  refine ⟨e1, e1.trans e2.symm, ?_⟩
  simp [_enrich_with_tools, applyEnrichment, e1]

/-- Witness for C10 at a concrete entry whose fetch returns an empty
body. -/
theorem C10_empty_body_witness :
    fetch_tools (fun _ => NodeList.nil) (fun _ => some "") c1srvA
        = (c1srvA, Option.none, some ("Failed to fetch " ++ c1srvA.marketplace_url))
    ∧ fetch_tools (fun _ => NodeList.nil) (fun _ => some "") c1srvA
        = fetch_tools (fun _ => NodeList.nil) (fun _ => Option.none) c1srvA
    ∧ _enrich_with_tools (fun _ => NodeList.nil) (fun _ => some "") [c1srvA] [c1srvA]
        = ([c1srvA], ["Failed to fetch " ++ c1srvA.marketplace_url]) :=
  C10_empty_body (fun _ => NodeList.nil) (fun _ => some "") (fun _ => Option.none)
    c1srvA rfl rfl

end Crawler
